import Mathlib

/-!
# Shallow embedding of the CDC consumer
(`src/p04-zero-downtime-db-migration/consumer.py`)

The consumer reads Debezium change events from Kafka and applies them to a
target PostgreSQL database.  We embed the event-processing core as pure
Lean functions:

* the target store is an association list from `(table, id)` to a row image;
* the `_cdc_offsets` control table is an association list from
  `(topic, partition_id)` to `committed_offset`;
* the Python logger becomes an explicit log of `(level, message)` pairs
  threaded through a transaction state `Tx`;
* `cur.execute` of the SQL statements built by the Python code becomes a
  state transition on the store, with PostgreSQL's behaviour on the
  generated statements modelled where it matters (an
  `ON CONFLICT ... DO UPDATE SET` with an empty set-list is a syntax
  error; an insert lacking the `id` primary-key value violates NOT NULL);
* exceptions become `Except String`;
* the transaction/commit/rollback discipline of `run` becomes explicit
  state passing: a cycle works on a copy of the committed database state
  and either installs it (commit) or discards it (rollback).

Function names follow the Python source.  The `updated_at` timestamp
column of `_cdc_offsets` is dropped: no claim mentions it.  A Debezium
record's value `event.get("payload", event)` unwrapping is absorbed into
the `Payload` representation: a record's value is `Option Payload`
directly (a `None` value is the `event is None` case of `process_event`).
-/

namespace CDC

/-- Row field values.  The concrete Python values are JSON scalars; any
type with decidable equality works for the control flow, we use `Int`. -/
abbrev Val := Int

/-- A row image (`before`/`after` of a Debezium payload): a Python dict
as an association list from column name to value. -/
abbrev Row := List (String × Val)

/-- Python `d.get(k)` on a dict (first binding wins). -/
def alistGet (d : Row) (k : String) : Option Val :=
  match d with
  | [] => none
  | (k', v) :: rest => if k' = k then some v else alistGet rest k

/-- Generic association-list lookup, for the store and offsets tables. -/
def lookupKV {α β : Type} [DecidableEq α] (l : List (α × β)) (k : α) : Option β :=
  match l with
  | [] => none
  | (k', v) :: rest => if k' = k then some v else lookupKV rest k

/-- Generic association-list update/insert (SQL upsert on the key). -/
def setKV {α β : Type} [DecidableEq α] (l : List (α × β)) (k : α) (v : β) :
    List (α × β) :=
  match l with
  | [] => [(k, v)]
  | (k', v') :: rest => if k' = k then (k, v) :: rest else (k', v') :: setKV rest k v

/-- Generic association-list deletion (SQL `DELETE ... WHERE key = k`). -/
def delKV {α β : Type} [DecidableEq α] (l : List (α × β)) (k : α) : List (α × β) :=
  match l with
  | [] => []
  | (k', v') :: rest => if k' = k then delKV rest k else (k', v') :: delKV rest k

/-- Target-store row state: one table per stream with primary key `id`,
so rows are keyed by `(table, id value)`. -/
abbrev Store := List ((String × Val) × Row)

/-- The `_cdc_offsets` control table: `(topic, partition_id) ↦ committed_offset`. -/
abbrev Offsets := List ((String × Nat) × Int)

/-- Python `logging` levels used by the consumer. -/
inductive LogLevel where
  | debug
  | info
  | warning
  | error
deriving DecidableEq, Repr

/-- The log produced by the `cdc-consumer` logger. -/
abbrev Log := List (LogLevel × String)

/-- In-transaction state: the (uncommitted) store and offsets visible to
the open cursor, plus the log emitted so far. -/
structure Tx where
  store : Store
  offsets : Offsets
  log : Log
deriving DecidableEq, Repr

/-- Append one log line. -/
def logIt (tx : Tx) (lvl : LogLevel) (msg : String) : Tx :=
  { tx with log := tx.log ++ [(lvl, msg)] }

/-- Python `str.split(".")` on the character list: split on every dot,
keeping empty segments. -/
def splitDotAux : List Char → List Char → List String
  | [], acc => [String.mk acc.reverse]
  | c :: rest, acc =>
      if c = '.' then String.mk acc.reverse :: splitDotAux rest []
      else splitDotAux rest (c :: acc)

/-- Source `extract_table_name`: `topic.split(".")`, last part when there are at
least three parts (`cdc.public.users -> users`), else the whole topic. -/
def extract_table_name (topic : String) : String :=
  let parts := splitDotAux topic.data []
  if parts.length ≥ 3 then parts.getLastD topic else topic

/-- Source `is_offset_processed`: the idempotency guard.  Reads the
`committed_offset` for `(topic, partition)`; absent row means not
processed, otherwise processed iff `offset <= committed_offset`. -/
def is_offset_processed (offsets : Offsets) (topic : String) (partition : Nat)
    (offset : Int) : Bool :=
  match lookupKV offsets (topic, partition) with
  | none => false
  | some c => offset ≤ c

/-- Source `update_committed_offset`: `INSERT ... ON CONFLICT (topic, partition_id)
DO UPDATE SET committed_offset = EXCLUDED.committed_offset` — an
unconditional upsert to the given offset. -/
def update_committed_offset (offsets : Offsets) (topic : String) (partition : Nat)
    (offset : Int) : Offsets :=
  setKV offsets (topic, partition) offset

/-- The `ON CONFLICT (id) DO UPDATE SET` column list built by
`apply_create_or_update`: every column except `id`, rendered as
`col = EXCLUDED.col` and comma-joined. -/
def update_clause_of (columns : List String) : String :=
  String.intercalate ", "
    ((columns.filter (fun c => c ≠ "id")).map (fun c => c ++ " = EXCLUDED." ++ c))

/-- Source `apply_create_or_update`: empty `after` is a logged no-op; otherwise
build `INSERT INTO table (cols) VALUES (vals) ON CONFLICT (id) DO UPDATE
SET <update_clause>` and execute it.  Executing the statement follows
PostgreSQL: an empty `DO UPDATE SET` list is a syntax error; an insert
without the `id` primary-key value is a NOT NULL violation; otherwise the
upsert sets the row keyed by `(table, after["id"])` to the `after` image. -/
def apply_create_or_update (tx : Tx) (table : String) (after : Row) :
    Except String Tx :=
  if after.isEmpty then
    Except.ok (logIt tx .warning "empty after payload, skipping")
  else
    let columns := after.map Prod.fst
    let update_clause := update_clause_of columns
    if update_clause = "" then
      Except.error "syntax error at or near DO UPDATE SET"
    else
      match alistGet after "id" with
      | none => Except.error "null value in column id violates not-null constraint"
      | some idv =>
          Except.ok { tx with store := setKV tx.store (table, idv) after }

/-- Source `apply_delete`: empty `before` is a logged no-op; a `before` lacking
`id` is a logged error (the function returns normally); otherwise execute
`DELETE FROM table WHERE id = %s`. -/
def apply_delete (tx : Tx) (table : String) (before : Row) : Except String Tx :=
  if before.isEmpty then
    Except.ok (logIt tx .warning "empty before payload, skipping")
  else
    match alistGet before "id" with
    | none =>
        Except.ok (logIt tx .error "delete event missing id field in before payload")
    | some idv =>
        Except.ok { tx with store := delKV tx.store (table, idv) }

/-- A Debezium payload: operation code plus optional row images; an
absent `before`/`after` key reads as the empty dict (`payload.get("after", {})`). -/
structure Payload where
  op : Option String
  before : Row := []
  after : Row := []
deriving DecidableEq, Repr

/-- Source `process_event`: dispatch one CDC event.  `None` value: return.
`c`/`r`/`u`: upsert from `after`.  `d`: delete from `before`.  No `op`:
debug-logged skip (tombstone/schema change).  Anything else:
warning-logged skip. -/
def process_event (tx : Tx) (topic : String) (event : Option Payload) :
    Except String Tx :=
  match event with
  | none => Except.ok tx
  | some payload =>
      let table := extract_table_name topic
      match payload.op with
      | none => Except.ok (logIt tx .debug "skipping event with no operation field")
      | some op =>
          if op = "c" ∨ op = "r" then
            apply_create_or_update tx table payload.after
          else if op = "u" then
            apply_create_or_update tx table payload.after
          else if op = "d" then
            apply_delete tx table payload.before
          else
            Except.ok (logIt tx .warning "unknown operation, skipping")

/-- One Kafka record as seen by the inner loop of `run`. -/
structure Message where
  offset : Int
  value : Option Payload
deriving DecidableEq, Repr

/-- The per-message body of `run`'s inner loop: skip if
`is_offset_processed`, otherwise `process_event` then
`update_committed_offset` in the same transaction; an exception
propagates (after `conn.rollback(); raise` in the source). -/
def processMessage (tx : Tx) (topic : String) (partition : Nat) (msg : Message) :
    Except String Tx :=
  if is_offset_processed tx.offsets topic partition msg.offset then
    Except.ok (logIt tx .debug "skipping already-processed offset")
  else
    match process_event tx topic msg.value with
    | Except.error e => Except.error e
    | Except.ok tx' =>
        Except.ok { tx' with
          offsets := update_committed_offset tx'.offsets topic partition msg.offset }

/-- The records of one `consumer.poll` call: topic-partitions with their
message lists. -/
abbrev Records := List ((String × Nat) × List Message)

/-- Fold `processMessage` over one partition's messages; the first
exception aborts the whole fold. -/
def processMessages (tx : Tx) (topic : String) (partition : Nat) :
    List Message → Except String Tx
  | [] => Except.ok tx
  | m :: rest =>
      match processMessage tx topic partition m with
      | Except.error e => Except.error e
      | Except.ok tx' => processMessages tx' topic partition rest

/-- Fold over all polled topic-partitions (the `for topic_partition,
messages in records.items()` loop). -/
def processBatch (tx : Tx) : Records → Except String Tx
  | [] => Except.ok tx
  | ((t, p), msgs) :: rest =>
      match processMessages tx t p msgs with
      | Except.error e => Except.error e
      | Except.ok tx' => processBatch tx' rest

/-- The durable (committed) database state. -/
structure DbState where
  store : Store
  offsets : Offsets
deriving DecidableEq, Repr

/-- Open a transaction on the committed state (fresh cursor, empty log). -/
def initTx (db : DbState) : Tx :=
  { store := db.store, offsets := db.offsets, log := [] }

/-- Externally visible steps of one cycle, in order of occurrence. -/
inductive Action where
  | storeCommit
  | sourceAck
  | rollback
deriving DecidableEq, Repr

/-- Result of one poll-apply-commit cycle of `run`. -/
structure CycleResult where
  db : DbState
  acked : Bool
  trace : List Action
deriving DecidableEq, Repr

/-- One cycle of `run`'s main loop on a non-empty poll result: process
the batch in a transaction; on success `conn.commit()` then
`consumer.commit()`; any exception (from an event, or from the commit
itself — `commitSucceeds = false`) reaches the outer handler which rolls
the transaction back, leaving the committed state untouched and the
source offsets unacknowledged. -/
def run_cycle (db : DbState) (records : Records) (commitSucceeds : Bool) :
    CycleResult :=
  match processBatch (initTx db) records with
  | Except.error _ => { db := db, acked := false, trace := [Action.rollback] }
  | Except.ok tx =>
      if commitSucceeds then
        { db := { store := tx.store, offsets := tx.offsets },
          acked := true,
          trace := [Action.storeCommit, Action.sourceAck] }
      else
        { db := db, acked := false, trace := [Action.rollback] }

/-- Outcome of a connection-retry loop: a live handle obtained on some
attempt, or `sys.exit(code)` after exhaustion. -/
inductive ConnectResult where
  | connected (attempt : Nat)
  | exited (code : Nat)
deriving DecidableEq, Repr

/-- The shared retry loop of `connect_target_db` and
`create_kafka_consumer`: `for attempt in range(1, MAX_RETRIES + 1)`, try
to connect; on failure sleep `RETRY_BACKOFF_BASE ** attempt` seconds and
continue; after the loop, `sys.exit(1)`.  `failsAt n` says whether the
attempt numbered `n` fails; the result pairs the outcome with the list of
sleep durations in order. -/
def connectLoop (base : ℚ) (failsAt : Nat → Bool) :
    Nat → Nat → ConnectResult × List ℚ
  | _, 0 => (ConnectResult.exited 1, [])
  | attempt, fuel + 1 =>
      if failsAt attempt then
        let r := connectLoop base failsAt (attempt + 1) fuel
        (r.1, base ^ attempt :: r.2)
      else
        (ConnectResult.connected attempt, [])

/-- Source `connect_target_db`: the retry loop over `psycopg2.connect`, attempts
numbered 1 through `maxRetries`. -/
def connect_target_db (base : ℚ) (maxRetries : Nat) (failsAt : Nat → Bool) :
    ConnectResult × List ℚ :=
  connectLoop base failsAt 1 maxRetries

/-- Source `create_kafka_consumer`: the identical retry loop over the Kafka
consumer constructor. -/
def create_kafka_consumer (base : ℚ) (maxRetries : Nat) (failsAt : Nat → Bool) :
    ConnectResult × List ℚ :=
  connectLoop base failsAt 1 maxRetries

/-! ## Helper lemmas -/

instance exceptDecEq {ε α : Type} [DecidableEq ε] [DecidableEq α] :
    DecidableEq (Except ε α) := fun x y =>
  match x, y with
  | Except.ok a, Except.ok b =>
      if h : a = b then isTrue (by rw [h])
      else isFalse (by intro hc; cases hc; exact h rfl)
  | Except.error a, Except.error b =>
      if h : a = b then isTrue (by rw [h])
      else isFalse (by intro hc; cases hc; exact h rfl)
  | Except.ok _, Except.error _ => isFalse (by intro hc; cases hc)
  | Except.error _, Except.ok _ => isFalse (by intro hc; cases hc)

theorem lookupKV_setKV_self {α β : Type} [DecidableEq α]
    (l : List (α × β)) (k : α) (v : β) :
    lookupKV (setKV l k v) k = some v := by
  induction l with
  | nil => simp [setKV, lookupKV]
  | cons hd tl ih =>
      obtain ⟨k', v'⟩ := hd
      by_cases h : k' = k
      · simp [setKV, h, lookupKV]
      · simp [setKV, h, lookupKV, ih]

theorem lookupKV_setKV_ne {α β : Type} [DecidableEq α]
    (l : List (α × β)) (k k' : α) (v : β) (h : k' ≠ k) :
    lookupKV (setKV l k v) k' = lookupKV l k' := by
  have h' : ¬ k = k' := fun hk => h hk.symm
  induction l with
  | nil => simp [setKV, lookupKV, h']
  | cons hd tl ih =>
      obtain ⟨a, b⟩ := hd
      by_cases ha : a = k
      · subst ha
        simp [setKV, lookupKV, h']
      · simp [setKV, ha, lookupKV, ih]

theorem apply_create_or_update_offsets (tx : Tx) (table : String) (after : Row)
    (tx' : Tx) (h : apply_create_or_update tx table after = Except.ok tx') :
    tx'.offsets = tx.offsets := by
  simp only [apply_create_or_update] at h
  repeat' split at h
  all_goals first
    | (cases h; rfl)
    | simp at h

theorem apply_delete_offsets (tx : Tx) (table : String) (before : Row)
    (tx' : Tx) (h : apply_delete tx table before = Except.ok tx') :
    tx'.offsets = tx.offsets := by
  simp only [apply_delete] at h
  repeat' split at h
  all_goals first
    | (cases h; rfl)
    | simp at h

theorem apply_delete_log_grows (tx : Tx) (table : String) (before : Row)
    (tx' : Tx) (h : apply_delete tx table before = Except.ok tx') :
    ∃ suffix, tx'.log = tx.log ++ suffix := by
  simp only [apply_delete] at h
  repeat' split at h
  all_goals first
    | (cases h; exact ⟨_, rfl⟩)
    | (cases h; exact ⟨[], (List.append_nil _).symm⟩)
    | simp at h

theorem process_event_offsets (tx : Tx) (topic : String) (event : Option Payload)
    (tx' : Tx) (h : process_event tx topic event = Except.ok tx') :
    tx'.offsets = tx.offsets := by
  cases event with
  | none => simp only [process_event] at h; cases h; rfl
  | some payload =>
      simp only [process_event] at h
      cases hop : payload.op with
      | none => rw [hop] at h; cases h; rfl
      | some op =>
          rw [hop] at h
          repeat' split at h
          all_goals first
            | exact apply_create_or_update_offsets _ _ _ _ h
            | exact apply_delete_offsets _ _ _ _ h
            | (cases h; rfl)
            | simp at h

theorem processMessage_skip (tx : Tx) (t : String) (p : Nat) (m : Message)
    (h : is_offset_processed tx.offsets t p m.offset = true) :
    processMessage tx t p m =
      Except.ok (logIt tx .debug "skipping already-processed offset") := by
  simp [processMessage, h]

theorem processMessage_guard_after (tx tx' : Tx) (t : String) (p : Nat) (m : Message)
    (h : processMessage tx t p m = Except.ok tx') :
    is_offset_processed tx'.offsets t p m.offset = true := by
  unfold processMessage at h
  split at h
  · next hg =>
      cases h
      simpa [logIt] using hg
  · split at h
    · exact absurd h (by simp)
    · next tx₁ heq =>
        cases h
        simp [is_offset_processed, update_committed_offset, lookupKV_setKV_self]

/-! ## Concrete fixtures -/

/-- Empty committed database state. -/
def dbEmpty : DbState := { store := [], offsets := [] }

/-- A create event whose `after` holds only the primary key: its upsert
has an empty `DO UPDATE SET` list and fails on execution. -/
def badUpsertMsg : Message :=
  { offset := 0, value := some { op := some "c", after := [("id", 1)] } }

/-- A one-event batch containing `badUpsertMsg`. -/
def recordsC1 : Records := [(("cdc.public.users", 0), [badUpsertMsg])]

/-- A well-formed create event. -/
def msgC2 : Message :=
  { offset := 3, value := some { op := some "c", after := [("id", 1), ("name", 2)] } }

/-- The transaction state after applying `msgC2` to the empty state. -/
def txC2applied : Tx :=
  { store := [(("users", 1), [("id", 1), ("name", 2)])],
    offsets := [(("cdc.public.users", 0), 3)],
    log := [] }

/-- A one-event batch containing `msgC2`. -/
def recordsC4 : Records := [(("cdc.public.users", 0), [msgC2])]

/-! ## Claim theorems -/

/-- C1: if processing any event of the batch fails (translation or
execution), the whole target-store transaction is aborted: the committed
state is exactly what it was before the batch (no row mutation, no
watermark update), the source offsets are not acknowledged, and the only
externally visible step is a rollback — so the unacknowledged batch is
redelivered and retried as a unit on a later cycle. -/
theorem batch_failure_is_atomic (db : DbState) (records : Records) (c : Bool)
    (h : ∃ e, processBatch (initTx db) records = Except.error e) :
    run_cycle db records c =
      { db := db, acked := false, trace := [Action.rollback] } := by
  obtain ⟨e, he⟩ := h
  simp [run_cycle, he]

/-- Witness for C1: a concrete batch whose single event fails execution
leaves the empty database untouched and unacknowledged. -/
theorem batch_failure_is_atomic_witness :
    run_cycle dbEmpty recordsC1 true =
      { db := dbEmpty, acked := false, trace := [Action.rollback] } :=
  batch_failure_is_atomic dbEmpty recordsC1 true ⟨_, rfl⟩

/-- C2: once a message has been processed successfully, a second delivery
of the same `(topic, partition, offset)` is skipped by the offset guard:
it succeeds, takes the debug-logged skip branch, and leaves the row state
and the watermark exactly as they were. -/
theorem second_delivery_is_skip (tx tx₁ : Tx) (t : String) (p : Nat) (m : Message)
    (h : processMessage tx t p m = Except.ok tx₁) :
    processMessage tx₁ t p m =
      Except.ok (logIt tx₁ .debug "skipping already-processed offset") ∧
    (logIt tx₁ .debug "skipping already-processed offset").store = tx₁.store ∧
    (logIt tx₁ .debug "skipping already-processed offset").offsets = tx₁.offsets := by
  have hg := processMessage_guard_after tx tx₁ t p m h
  exact ⟨processMessage_skip _ _ _ _ hg, rfl, rfl⟩

/-- Witness for C2: redelivering a concrete create event after its first
application is a pure skip. -/
theorem second_delivery_is_skip_witness :
    processMessage txC2applied "cdc.public.users" 0 msgC2 =
      Except.ok (logIt txC2applied .debug "skipping already-processed offset") ∧
    (logIt txC2applied .debug "skipping already-processed offset").store =
      txC2applied.store ∧
    (logIt txC2applied .debug "skipping already-processed offset").offsets =
      txC2applied.offsets :=
  second_delivery_is_skip (initTx dbEmpty) txC2applied "cdc.public.users" 0 msgC2
    (by decide)

/-- Counterexample to C3 as stated: `update_committed_offset` does not
"only ever increase" the stored offset — called with offset 5 while the
stored committed offset is 10, it overwrites the watermark down to 5. -/
theorem watermark_advance_can_regress :
    (5 : Int) < 10 ∧
    update_committed_offset [(("cdc.public.users", 0), 10)] "cdc.public.users" 0 5 =
      [(("cdc.public.users", 0), 5)] :=
  ⟨by decide, by decide⟩

/-- C3 (amended): `update_committed_offset` writes exactly the given
offset, so by itself it can regress the watermark; within the consumer
loop, where it runs only after the idempotency guard has shown
`offset > committed_offset`, every stored per-partition committed offset
is monotonically non-decreasing. -/
theorem consumer_watermark_monotone (tx tx' : Tx) (t : String) (p : Nat)
    (m : Message) (h : processMessage tx t p m = Except.ok tx')
    (key : String × Nat) (c : Int) (hc : lookupKV tx.offsets key = some c) :
    ∃ c', lookupKV tx'.offsets key = some c' ∧ c ≤ c' := by
  unfold processMessage at h
  split at h
  · cases h
    exact ⟨c, by simpa [logIt] using hc, le_refl c⟩
  · next hg =>
      cases hpe : process_event tx t m.value with
      | error e => rw [hpe] at h; simp at h
      | ok tx₁ =>
          rw [hpe] at h
          cases h
          have hoff := process_event_offsets tx t m.value tx₁ hpe
          by_cases hkey : key = (t, p)
          · subst hkey
            refine ⟨m.offset, by simp [update_committed_offset, lookupKV_setKV_self], ?_⟩
            have hgt : ¬ (m.offset ≤ c) := by
              intro hle
              exact hg (by simp [is_offset_processed, hc, hle])
            exact le_of_not_le hgt
          · refine ⟨c, ?_, le_refl c⟩
            show lookupKV (update_committed_offset tx₁.offsets t p m.offset) key = some c
            rw [update_committed_offset, lookupKV_setKV_ne _ _ _ _ hkey, hoff]
            exact hc

/-- Witness for C3 (amended): processing a concrete event on partition
`("t", 0)` whose watermark stands at 2 leaves a watermark ≥ 2. -/
theorem consumer_watermark_monotone_witness :
    ∃ c', lookupKV
        (Tx.offsets { store := [], offsets := [(("t", 0), 5)],
                      log := [(LogLevel.debug, "skipping event with no operation field")] })
        ("t", 0) = some c' ∧ (2 : Int) ≤ c' :=
  consumer_watermark_monotone
    { store := [], offsets := [(("t", 0), 2)], log := [] }
    { store := [], offsets := [(("t", 0), 5)],
      log := [(LogLevel.debug, "skipping event with no operation field")] }
    "t" 0 { offset := 5, value := some { op := none } }
    (by decide) ("t", 0) 2 (by decide)

/-- C4: in every cycle, the source offsets are acknowledged only if the
target-store commit succeeded, and whenever the acknowledgment occurs the
trace is exactly store-commit followed by source-ack — the commit happens
strictly before the acknowledgment. -/
theorem commit_strictly_before_ack (db : DbState) (records : Records) (c : Bool) :
    ((run_cycle db records c).acked = true →
      c = true ∧
      (run_cycle db records c).trace = [Action.storeCommit, Action.sourceAck]) ∧
    (Action.sourceAck ∈ (run_cycle db records c).trace →
      (run_cycle db records c).trace = [Action.storeCommit, Action.sourceAck]) := by
  unfold run_cycle
  cases hpb : processBatch (initTx db) records with
  | error e => simp
  | ok tx => cases c <;> simp

/-- Witness for C4: a concrete successful cycle commits the store
strictly before acknowledging the source. -/
theorem commit_strictly_before_ack_witness :
    (run_cycle dbEmpty recordsC4 true).trace =
      [Action.storeCommit, Action.sourceAck] :=
  (commit_strictly_before_ack dbEmpty recordsC4 true).2 (by decide)

/-- A tombstone record (`op` null). -/
def msgTombstone : Message := { offset := 7, value := some { op := none } }

/-- Counterexample to C5 as stated: processing a tombstone (`op = null`)
raises no error and writes no row, but it does change the watermark — the
event's offset is committed to `_cdc_offsets` like any processed event's,
so "no watermark change" is false. -/
theorem tombstone_advances_watermark_cex :
    processMessage (initTx dbEmpty) "cdc.public.users" 0 msgTombstone =
      Except.ok { store := [],
                  offsets := [(("cdc.public.users", 0), 7)],
                  log := [(LogLevel.debug, "skipping event with no operation field")] } ∧
    [(("cdc.public.users", 0), (7 : Int))] ≠ (initTx dbEmpty).offsets :=
  ⟨by decide, by decide⟩

/-- C5 (amended): an event with `op = null` produces no store write and
no error; its offset is committed to the watermark like any processed
event's (it is not redelivered). -/
theorem tombstone_no_row_write (tx : Tx) (t : String) (p : Nat) (m : Message)
    (pl : Payload) (hv : m.value = some pl) (hop : pl.op = none)
    (hg : is_offset_processed tx.offsets t p m.offset = false) :
    ∃ tx', processMessage tx t p m = Except.ok tx' ∧ tx'.store = tx.store ∧
      lookupKV tx'.offsets (t, p) = some m.offset := by
  have hpe : process_event tx t m.value =
      Except.ok (logIt tx .debug "skipping event with no operation field") := by
    rw [hv]
    simp [process_event, hop]
  refine ⟨{ store := tx.store,
            offsets := update_committed_offset tx.offsets t p m.offset,
            log := tx.log ++ [(LogLevel.debug, "skipping event with no operation field")] },
          ?_, rfl, ?_⟩
  · simp [processMessage, hg, hpe, logIt]
  · simp [update_committed_offset, lookupKV_setKV_self]

/-- Witness for C5 (amended): a concrete tombstone at offset 7. -/
theorem tombstone_no_row_write_witness :
    ∃ tx', processMessage (initTx dbEmpty) "cdc.public.users" 0 msgTombstone =
        Except.ok tx' ∧ tx'.store = (initTx dbEmpty).store ∧
      lookupKV tx'.offsets ("cdc.public.users", 0) = some msgTombstone.offset :=
  tombstone_no_row_write (initTx dbEmpty) "cdc.public.users" 0 msgTombstone
    { op := none } rfl rfl (by decide)

/-- A delete event whose `before` image lacks the `id` primary key. -/
def msgBadDelete : Message :=
  { offset := 4, value := some { op := some "d", before := [("name", 1)] } }

/-- A one-event batch containing `msgBadDelete`. -/
def recordsC6 : Records := [(("cdc.public.users", 0), [msgBadDelete])]

/-- A committed state holding the row such a delete would have removed. -/
def dbC6 : DbState :=
  { store := [(("users", 1), [("id", 1), ("name", 1)])], offsets := [] }

/-- Counterexample to C6 as stated: a delete whose `before` lacks the
primary key does log an error and deletes nothing, but it does not abort
the batch — the batch succeeds with the event's offset committed, the
transaction commits and the source offsets are acknowledged, so the event
is never retried. -/
theorem bad_delete_does_not_abort_batch_cex :
    processBatch (initTx dbC6) recordsC6 =
      Except.ok { store := dbC6.store,
                  offsets := [(("cdc.public.users", 0), 4)],
                  log := [(LogLevel.error,
                           "delete event missing id field in before payload")] } ∧
    (run_cycle dbC6 recordsC6 true).acked = true :=
  ⟨by decide, by decide⟩

/-- C6 (amended): a delete event whose `before` lacks the primary key
produces a reported (error-level logged) error and no row deletion, but
it does not abort the containing batch: processing succeeds and the
event's offset is committed to the watermark like a successful event's. -/
theorem bad_delete_reports_and_continues (tx : Tx) (t : String) (p : Nat)
    (m : Message) (pl : Payload) (hv : m.value = some pl) (hop : pl.op = some "d")
    (hne : pl.before ≠ []) (hid : alistGet pl.before "id" = none)
    (hg : is_offset_processed tx.offsets t p m.offset = false) :
    ∃ tx', processMessage tx t p m = Except.ok tx' ∧
      tx'.store = tx.store ∧
      (LogLevel.error, "delete event missing id field in before payload") ∈ tx'.log ∧
      lookupKV tx'.offsets (t, p) = some m.offset := by
  have hne' : pl.before.isEmpty = false := by
    cases hb : pl.before with
    | nil => exact absurd hb hne
    | cons a l => rfl
  have hpe : process_event tx t m.value =
      Except.ok (logIt tx .error "delete event missing id field in before payload") := by
    rw [hv]
    simp [process_event, hop, apply_delete, hne', hid]
  refine ⟨{ store := tx.store,
            offsets := update_committed_offset tx.offsets t p m.offset,
            log := tx.log ++
              [(LogLevel.error, "delete event missing id field in before payload")] },
          ?_, rfl, ?_, ?_⟩
  · simp [processMessage, hg, hpe, logIt]
  · simp
  · simp [update_committed_offset, lookupKV_setKV_self]

/-- Witness for C6 (amended): the concrete malformed delete is absorbed
without aborting and without deleting. -/
theorem bad_delete_reports_and_continues_witness :
    ∃ tx', processMessage (initTx dbC6) "cdc.public.users" 0 msgBadDelete =
        Except.ok tx' ∧
      tx'.store = (initTx dbC6).store ∧
      (LogLevel.error, "delete event missing id field in before payload") ∈ tx'.log ∧
      lookupKV tx'.offsets ("cdc.public.users", 0) = some msgBadDelete.offset :=
  bad_delete_reports_and_continues (initTx dbC6) "cdc.public.users" 0 msgBadDelete
    { op := some "d", before := [("name", 1)] } rfl rfl
    (by decide) (by decide) (by decide)

/-- C7: once an event e2 has been processed, a later (out-of-order)
redelivery of an event e1 with `e1.offset ≤ e2.offset` on the same
(topic, partition) is rejected by the watermark guard: it is a pure skip,
leaving the row state and the watermark unchanged — the row never ends at
e1's values. -/
theorem out_of_order_redelivery_rejected (tx tx₂ : Tx) (t : String) (p : Nat)
    (e1 e2 : Message) (hle : e1.offset ≤ e2.offset)
    (h : processMessage tx t p e2 = Except.ok tx₂) :
    processMessage tx₂ t p e1 =
      Except.ok (logIt tx₂ .debug "skipping already-processed offset") ∧
    (logIt tx₂ .debug "skipping already-processed offset").store = tx₂.store ∧
    (logIt tx₂ .debug "skipping already-processed offset").offsets = tx₂.offsets := by
  have hg := processMessage_guard_after tx tx₂ t p e2 h
  refine ⟨processMessage_skip _ _ _ _ ?_, rfl, rfl⟩
  rw [is_offset_processed] at hg ⊢
  cases hl : lookupKV tx₂.offsets (t, p) with
  | none => rw [hl] at hg; simp at hg
  | some c =>
      rw [hl] at hg
      simp only [decide_eq_true_eq] at hg ⊢
      exact le_trans hle hg

/-- Witness for C7: with e2 = offset 6 (update) applied, redelivering
e1 = offset 5 on the same key is skipped. -/
theorem out_of_order_redelivery_rejected_witness :
    processMessage txC2applied "cdc.public.users" 0
        { offset := 2, value := some { op := some "u", after := [("id", 1), ("name", 7)] } } =
      Except.ok (logIt txC2applied .debug "skipping already-processed offset") ∧
    (logIt txC2applied .debug "skipping already-processed offset").store =
      txC2applied.store ∧
    (logIt txC2applied .debug "skipping already-processed offset").offsets =
      txC2applied.offsets :=
  out_of_order_redelivery_rejected (initTx dbEmpty) txC2applied "cdc.public.users" 0
    { offset := 2, value := some { op := some "u", after := [("id", 1), ("name", 7)] } }
    msgC2 (by decide) (by decide)

/-- C8: `is_offset_processed` returns true iff a committed offset is
stored for the (topic, partition) and it is at least the queried offset;
with no stored watermark row it returns false. -/
theorem isApplied_iff (offs : Offsets) (t : String) (p : Nat) (o : Int) :
    (is_offset_processed offs t p o = true ↔
      ∃ c, lookupKV offs (t, p) = some c ∧ o ≤ c) ∧
    (lookupKV offs (t, p) = none → is_offset_processed offs t p o = false) := by
  constructor
  · rw [is_offset_processed]
    cases hl : lookupKV offs (t, p) with
    | none => simp
    | some c => simp
  · intro h
    rw [is_offset_processed, h]

/-- Witness for C8: with no watermark row stored, the check is false. -/
theorem isApplied_iff_witness :
    is_offset_processed [] "cdc.public.users" 0 3 = false :=
  (isApplied_iff [] "cdc.public.users" 0 3).2 (by decide)

theorem connectLoop_get (base : ℚ) (f : Nat → Bool) :
    ∀ (fuel a i : Nat) (w : ℚ),
      (connectLoop base f a fuel).2.get? i = some w → w = base ^ (a + i) := by
  intro fuel
  induction fuel with
  | zero => intro a i w h; simp [connectLoop] at h
  | succ n ih =>
      intro a i w h
      rw [connectLoop] at h
      by_cases hf : f a
      · rw [if_pos hf] at h
        cases i with
        | zero =>
            simp at h
            rw [← h, Nat.add_zero]
        | succ j =>
            simp only [List.get?_cons_succ] at h
            rw [ih (a + 1) j w h]
            congr 1
            omega
      · rw [if_neg hf] at h
        simp at h

theorem connectLoop_length (base : ℚ) (f : Nat → Bool) :
    ∀ (fuel a : Nat), (connectLoop base f a fuel).2.length ≤ fuel := by
  intro fuel
  induction fuel with
  | zero => intro a; simp [connectLoop]
  | succ n ih =>
      intro a
      rw [connectLoop]
      by_cases hf : f a
      · rw [if_pos hf]
        simpa using ih (a + 1)
      · rw [if_neg hf]
        simp

theorem connectLoop_connected_bound (base : ℚ) (f : Nat → Bool) :
    ∀ (fuel a k : Nat),
      (connectLoop base f a fuel).1 = ConnectResult.connected k → k < a + fuel := by
  intro fuel
  induction fuel with
  | zero => intro a k h; simp [connectLoop] at h
  | succ n ih =>
      intro a k h
      rw [connectLoop] at h
      by_cases hf : f a
      · rw [if_pos hf] at h
        have := ih (a + 1) k h
        omega
      · rw [if_neg hf] at h
        cases h
        omega

theorem connectLoop_exhausted (base : ℚ) (f : Nat → Bool) (hf : ∀ n, f n = true) :
    ∀ (fuel a : Nat), (connectLoop base f a fuel).1 = ConnectResult.exited 1 := by
  intro fuel
  induction fuel with
  | zero => intro a; rfl
  | succ n ih =>
      intro a
      rw [connectLoop, if_pos (hf a)]
      exact ih (a + 1)

/-- Counterexample to C9 as stated: with the default backoff base 2.0 and
every attempt failing, the first sleep lasts `2.0 ** 1 = 2` seconds (the
full schedule is `[2, 4, 8, 16, 32]`), while the claimed formula
`base delay × 2^n` gives 4 for n = 1 and 8 for n = 2 — neither reading of
`n` matches the first sleep. -/
theorem backoff_formula_cex :
    (connect_target_db 2 5 (fun _ => true)).2 = [2, 4, 8, 16, 32] ∧
    (2 : ℚ) * 2 ^ 1 ≠ 2 ∧ (2 : ℚ) * 2 ^ 2 ≠ 2 :=
  ⟨by decide, by norm_num, by norm_num⟩

/-- C9 (amended): both connection loops sleep `base ^ attempt` (not
`base × 2^attempt`) after the failed attempt numbered `attempt`; the
number of attempts — hence of sleeps — is bounded by the configured
maximum; and when every attempt fails the process exits with the non-zero
code 1.  `create_kafka_consumer` and `connect_target_db` share the loop
verbatim. -/
theorem connect_retry_backoff (base : ℚ) (m : Nat) (f : Nat → Bool) :
    (∀ i w, (connect_target_db base m f).2.get? i = some w → w = base ^ (i + 1)) ∧
    (connect_target_db base m f).2.length ≤ m ∧
    (∀ k, (connect_target_db base m f).1 = ConnectResult.connected k → k ≤ m) ∧
    ((∀ n, f n = true) →
      ∃ code, (connect_target_db base m f).1 = ConnectResult.exited code ∧ code ≠ 0) ∧
    create_kafka_consumer base m f = connect_target_db base m f := by
  refine ⟨?_, ?_, ?_, ?_, rfl⟩
  · intro i w h
    rw [connectLoop_get base f m 1 i w h]
    congr 1
    omega
  · exact connectLoop_length base f m 1
  · intro k h
    have := connectLoop_connected_bound base f m 1 k h
    omega
  · intro hf
    exact ⟨1, connectLoop_exhausted base f hf m 1, one_ne_zero⟩

/-- Witness for C9 (amended): base 3, two attempts, all failing — the
process exits with a non-zero code. -/
theorem connect_retry_backoff_witness :
    ∃ code, (connect_target_db 3 2 (fun _ => true)).1 =
        ConnectResult.exited code ∧ code ≠ 0 :=
  (connect_retry_backoff 3 2 (fun _ => true)).2.2.2.1 (fun _ => rfl)

/-- C10: for a create/read/update event whose `after` image holds only
the primary-key field `id`, the generated `ON CONFLICT (id) DO UPDATE
SET` column list is empty, so executing the upsert raises an error, which
propagates out of event processing and aborts the batch; the empty-
payload no-op guard fires only for a fully empty `after` image. -/
theorem id_only_upsert_errors (tx : Tx) (table : String) (v : Val) (t : String)
    (p : Nat) (off : Int) :
    update_clause_of ["id"] = "" ∧
    apply_create_or_update tx table [("id", v)] =
      Except.error "syntax error at or near DO UPDATE SET" ∧
    (∃ tx', apply_create_or_update tx table [] = Except.ok tx' ∧
      tx'.store = tx.store) ∧
    (is_offset_processed tx.offsets t p off = false →
      processMessage tx t p
          { offset := off, value := some { op := some "c", after := [("id", v)] } } =
        Except.error "syntax error at or near DO UPDATE SET") := by
  have hclause : update_clause_of ["id"] = "" := rfl
  refine ⟨rfl, ?_, ?_, ?_⟩
  · simp [apply_create_or_update, hclause]
  · exact ⟨logIt tx .warning "empty after payload, skipping",
      by simp [apply_create_or_update], rfl⟩
  · intro hg
    have hpe : process_event tx t
        (some { op := some "c", before := [], after := [("id", v)] }) =
        Except.error "syntax error at or near DO UPDATE SET" := by
      simp [process_event, apply_create_or_update, hclause]
    simp [processMessage, hg, hpe]

/-- Witness for C10: a concrete id-only create event aborts processing. -/
theorem id_only_upsert_errors_witness :
    processMessage (initTx dbEmpty) "cdc.public.users" 0
        { offset := 0, value := some { op := some "c", after := [("id", 1)] } } =
      Except.error "syntax error at or near DO UPDATE SET" :=
  (id_only_upsert_errors (initTx dbEmpty) "users" 1 "cdc.public.users" 0 0).2.2.2
    (by decide)

end CDC
